import Mathlib

/-!
# Verification of the per-guild voice session core

Shallow embedding of the repository's per-guild voice-connection supervisor
(`VoiceManager`), the owner-follow coordinator (`VoiceFollower`) and the
ordered playback queue (`TtsQueue`), together with theorems checking the
design document's claims about them.

Conventions of the embedding:
* Connection handles, channel ids, guild ids and error values are modelled
  as natural numbers; text is modelled as `List Char`.
* The cooperative scheduler is modelled by recording, for each lifecycle
  operation, the session value visible at every suspension point
  (`TraceEv.snapshot`), together with the side effects performed
  (`destroyConn`, `sleep`, `lockAcquire`).
* The outcome of each transport connect attempt (ready signal vs.
  timeout/failure) and each `Math.random()` sample are supplied by an
  environment `VoiceEnv`, indexed by a global attempt counter.
-/

namespace VoiceBot

/-- The voice connection states, from the `VoiceState` enum of the
supervisor module. -/
inductive VoiceState
  | Idle
  | Connecting
  | Ready
  | Moving
  | Disconnecting
  | Backoff
deriving DecidableEq, Repr

/-- The per-guild session record (`GuildVoiceState` in the source).  The
`operationLock` field is not data; lock behaviour is modelled through
`TraceEv.lockAcquire` events. -/
structure GuildVoiceState where
  state : VoiceState
  connection : Option Nat
  channelId : Option Nat
  retries : Nat
  lastError : Option Nat
deriving DecidableEq, Repr

/-- The freshly created session of `getOrCreateState`. -/
def freshSession : GuildVoiceState :=
  { state := VoiceState.Idle, connection := none, channelId := none,
    retries := 0, lastError := none }

/-- Supervisor configuration (`joinTimeout`/`readyTimeout` only bound
suspensions and are irrelevant to the modelled state evolution). -/
structure VoiceConfig where
  maxRetries : Nat
  backoffBase : Nat
  backoffMax : Nat
deriving Repr

/-- The defaults read from the environment: maxRetries 3, backoff base
1000ms, backoff cap 10000ms. -/
def defaultVoiceConfig : VoiceConfig :=
  { maxRetries := 3, backoffBase := 1000, backoffMax := 10000 }

/-- Result of one transport connect attempt: the ready signal arrives
(carrying the fresh connection handle) or the attempt fails. -/
inductive AttemptOutcome
  | success (connId : Nat)
  | failure (errId : Nat)
deriving DecidableEq, Repr

/-- Does the attempt fail? -/
def AttemptOutcome.isFailure : AttemptOutcome → Bool
  | AttemptOutcome.success _ => false
  | AttemptOutcome.failure _ => true

/-- Environment feeding the supervisor: outcome of the k-th connect
attempt, and the `Math.random()` sample drawn for the k-th backoff. -/
structure VoiceEnv where
  outcome : Nat → AttemptOutcome
  jitterSample : Nat → ℚ

/-- Observable events of a lifecycle operation: the session value at a
suspension point, a connection teardown, a timed sleep, an acquisition of
the per-guild operation lock. -/
inductive TraceEv
  | snapshot (s : GuildVoiceState)
  | destroyConn (connId : Nat)
  | sleep (delay : ℚ)
  | lockAcquire
deriving DecidableEq, Repr

/-- Session values visible at the suspension points of a trace. -/
def traceSnapshots (t : List TraceEv) : List GuildVoiceState :=
  t.filterMap fun e =>
    match e with
    | TraceEv.snapshot s => some s
    | _ => none

/-- Backoff delays slept during a trace. -/
def traceSleeps (t : List TraceEv) : List ℚ :=
  t.filterMap fun e =>
    match e with
    | TraceEv.sleep d => some d
    | _ => none

/-- Connection handles destroyed during a trace. -/
def destroyedConns (t : List TraceEv) : List Nat :=
  t.filterMap fun e =>
    match e with
    | TraceEv.destroyConn c => some c
    | _ => none

/-- Number of times the per-guild operation lock was acquired in a trace. -/
def lockAcquisitions (t : List TraceEv) : Nat :=
  t.countP fun e =>
    match e with
    | TraceEv.lockAcquire => true
    | _ => false

/-- Result of running a lifecycle operation: final session, result value
(`.ok connId` or the raised error), observable trace, and the number of
connect attempts that were made. -/
structure JoinRun where
  finalState : GuildVoiceState
  result : Except Nat Nat
  trace : List TraceEv
  attempts : Nat
deriving Repr

namespace VoiceManager

/-- `calculateBackoff`: exponential delay capped at `backoffMax` plus up to
30% jitter; `jitterSample` models the `Math.random()` draw in `[0, 1)`. -/
def calculateBackoff (cfg : VoiceConfig) (retries : Nat) (jitterSample : ℚ) : ℚ :=
  let exponential := min ((cfg.backoffBase : ℚ) * 2 ^ retries) (cfg.backoffMax : ℚ)
  exponential + jitterSample * (3 / 10) * exponential

/-- The session as visible while `joinUnlockedOnce` awaits the ready
signal: the state field was set to `Connecting`, everything else —
including any previously stored connection — is untouched. -/
def connectingSnapshot (s : GuildVoiceState) : GuildVoiceState :=
  { s with state := VoiceState.Connecting }

/-- The session committed by `joinUnlockedOnce` on success. -/
def readyState (s : GuildVoiceState) (channelId connId : Nat) : GuildVoiceState :=
  { s with connection := some connId, channelId := some channelId,
           state := VoiceState.Ready, retries := 0, lastError := none }

/-- The catch block of `joinUnlockedWithRetries`: record the error,
defensively destroy whatever connection the session stores, clear
`connection` and `channelId`. -/
def failedCleanup (s : GuildVoiceState) (errId : Nat) : GuildVoiceState :=
  { s with lastError := some errId, connection := none, channelId := none }

/-- The retry loop of `joinUnlockedWithRetries`.  `remaining` is the retry
budget `maxRetries - retries`; the source's `retries < maxRetries` test is
the `remaining > 0` pattern here (the wrapper below establishes the
correspondence, and each retry decrements the budget while incrementing
the session's `retries`, keeping the two tests equivalent). -/
def joinRetriesAux (cfg : VoiceConfig) (env : VoiceEnv) (channelId : Nat) :
    Nat → Nat → GuildVoiceState → JoinRun
  | remaining, attemptIx, s =>
    match env.outcome attemptIx with
    | AttemptOutcome.success connId =>
      { finalState := readyState (connectingSnapshot s) channelId connId
        result := Except.ok connId
        trace := [TraceEv.snapshot (connectingSnapshot s)]
        attempts := 1 }
    | AttemptOutcome.failure errId =>
      let sFail := failedCleanup (connectingSnapshot s) errId
      match remaining with
      | r + 1 =>
        let sBackoff := { sFail with retries := sFail.retries + 1, state := VoiceState.Backoff }
        let rest := joinRetriesAux cfg env channelId r (attemptIx + 1) sBackoff
        { finalState := rest.finalState
          result := rest.result
          trace := TraceEv.snapshot (connectingSnapshot s) ::
            (s.connection.toList.map TraceEv.destroyConn ++
              TraceEv.sleep (calculateBackoff cfg sBackoff.retries (env.jitterSample attemptIx)) ::
                TraceEv.snapshot sBackoff :: rest.trace)
          attempts := rest.attempts + 1 }
      | 0 =>
        { finalState := { sFail with retries := 0, state := VoiceState.Idle }
          result := Except.error errId
          trace := TraceEv.snapshot (connectingSnapshot s) ::
            s.connection.toList.map TraceEv.destroyConn
          attempts := 1 }

/-- `joinUnlockedWithRetries`: the connect-with-retry routine, run while
already holding the guild lock. -/
def joinUnlockedWithRetries (cfg : VoiceConfig) (env : VoiceEnv)
    (channelId attemptIx : Nat) (s : GuildVoiceState) : JoinRun :=
  joinRetriesAux cfg env channelId (cfg.maxRetries - s.retries) attemptIx s

/-- Public `join`: acquire the guild lock once, then run the retry
routine. -/
def join (cfg : VoiceConfig) (env : VoiceEnv) (channelId attemptIx : Nat)
    (s : GuildVoiceState) : JoinRun :=
  let run := joinUnlockedWithRetries cfg env channelId attemptIx s
  { run with trace := TraceEv.lockAcquire :: run.trace }

/-- Public `move`: acquire the guild lock once, set state to `Moving`,
destroy and clear any existing connection, then call the retry routine
directly (no nested lock acquisition). -/
def move (cfg : VoiceConfig) (env : VoiceEnv) (channelId attemptIx : Nat)
    (s : GuildVoiceState) : JoinRun :=
  let sMoving := { s with state := VoiceState.Moving }
  match s.connection with
  | some oldConn =>
    let run := joinUnlockedWithRetries cfg env channelId attemptIx
      { sMoving with connection := none, channelId := none }
    { run with trace := TraceEv.lockAcquire :: TraceEv.destroyConn oldConn :: run.trace }
  | none =>
    let run := joinUnlockedWithRetries cfg env channelId attemptIx sMoving
    { run with trace := TraceEv.lockAcquire :: run.trace }

/-- Public `leave`: acquire the lock; no-op without a session or without a
connection, otherwise pass through `Disconnecting`, destroy the connection
and reset the session (all between two suspension points, hence a single
observable step). -/
def leave (s : Option GuildVoiceState) : Option GuildVoiceState × List TraceEv :=
  match s with
  | none => (none, [TraceEv.lockAcquire])
  | some st =>
    match st.connection with
    | none => (some st, [TraceEv.lockAcquire])
    | some c =>
      (some { st with connection := none, channelId := none,
                      state := VoiceState.Idle, retries := 0 },
       [TraceEv.lockAcquire, TraceEv.destroyConn c])

/-- The session reset performed by the status-signal handlers. -/
def sessionReset (st : GuildVoiceState) : GuildVoiceState :=
  { st with connection := none, channelId := none,
            state := VoiceState.Idle, retries := 0 }

/-- The `Destroyed` signal handler installed by `setupConnectionHandlers`
for a given connection instance.  Its body looks the session up by guild
id and resets it; the connection the handler was registered for
(`registeredConn`) is captured by the closure but never compared against
the session's current connection. -/
def onDestroyed (registeredConn : Nat) (s : Option GuildVoiceState) :
    Option GuildVoiceState :=
  s.map sessionReset

/-- The permanent branch of the `Disconnected` signal handler: destroy the
registered connection instance, then reset whatever session the guild id
currently maps to. -/
def onDisconnectedPermanent (registeredConn : Nat) (s : Option GuildVoiceState) :
    Option GuildVoiceState × List TraceEv :=
  (s.map sessionReset, [TraceEv.destroyConn registeredConn])

end VoiceManager

/-- The specified session invariant: a connection is stored exactly in
state `Ready`, and a channel id is stored exactly when a connection is. -/
def sessionInv (s : GuildVoiceState) : Prop :=
  (s.connection.isSome = true ↔ s.state = VoiceState.Ready) ∧
  (s.channelId.isSome = true ↔ s.connection.isSome = true)

instance (s : GuildVoiceState) : Decidable (sessionInv s) := by
  unfold sessionInv; infer_instance

/-! ## The playback queue (`TtsQueue`) -/

/-- A queued playback item (`QueueItem` in the source); the request id is
modelled by the per-call segment index. -/
inductive QueueItem
  | tts (text : List Char) (requestId : Nat)
  | sound (soundKey : List Char) (filePath : List Char) (requestId : Nat)
deriving DecidableEq, Repr

/-- A segment produced by `splitIntoSegments`. -/
inductive Segment
  | tts (text : List Char)
  | sound (key : List Char) (filePath : List Char)
deriving DecidableEq, Repr

/-- The variant of a queue item, forgetting the request id. -/
def QueueItem.forgetId : QueueItem → Segment
  | QueueItem.tts t _ => Segment.tts t
  | QueueItem.sound k fp _ => Segment.sound k fp

/-- The sound library (`resolveSoundFile`): a pure lookup from a
normalized token to the resolved file path, `none` when no sound file
exists.  The filesystem probe is an external collaborator, so the lookup
table is a parameter of the embedding. -/
def SoundLib := List Char → Option (List Char)

namespace TtsQueue

/-- Queue configuration: `maxChars` truncation bound and the per-guild
anti-spam window `minRequestInterval` (milliseconds). -/
structure TtsConfig where
  maxChars : Nat
  minRequestInterval : Nat
deriving Repr

/-- The source's defaults: `MAX_TTS_CHARS` 200 and a 200ms request
interval. -/
def defaultTtsConfig : TtsConfig :=
  { maxChars := 200, minRequestInterval := 200 }

/-- The two synchronous rejections of `enqueue`. -/
inductive TtsError
  | rateLimited
  | emptyAfterSanitization
deriving DecidableEq, Repr

/-- First sanitization pass, the regex `@(everyone|here)` replaced by the
empty string: a single left-to-right scan removing each non-overlapping
occurrence (the alternation tries `everyone` before `here`). -/
def stripMentionsEveryone : List Char → List Char
  | '@' :: 'e' :: 'v' :: 'e' :: 'r' :: 'y' :: 'o' :: 'n' :: 'e' :: rest =>
    stripMentionsEveryone rest
  | '@' :: 'h' :: 'e' :: 'r' :: 'e' :: rest => stripMentionsEveryone rest
  | c :: rest => c :: stripMentionsEveryone rest
  | [] => []

/-- Matches the `\d+>` tail of a mention pattern: a nonempty maximal digit
run followed by `>`; returns the remainder of the input. -/
def mentionTail (l : List Char) : Option (List Char) :=
  if (l.takeWhile Char.isDigit).isEmpty then none
  else
    match l.dropWhile Char.isDigit with
    | '>' :: rest => some rest
    | _ => none

theorem mentionTail_length {l r : List Char} (h : mentionTail l = some r) :
    r.length < l.length := by
  unfold mentionTail at h
  split at h
  · exact absurd h (by simp)
  · rename_i hne
    split at h
    · rename_i heq
      cases h
      have hsplit : l.takeWhile Char.isDigit ++ l.dropWhile Char.isDigit = l :=
        List.takeWhile_append_dropWhile Char.isDigit l
      have h1 : 1 ≤ (l.takeWhile Char.isDigit).length := by
        cases htw : l.takeWhile Char.isDigit with
        | nil => simp [htw] at hne
        | cons a as => simp
      have h2 : l.length = (l.takeWhile Char.isDigit).length +
          (l.dropWhile Char.isDigit).length := by
        rw [← hsplit, List.length_append, hsplit]
      rw [heq] at h2
      simp at h2
      omega
    · exact absurd h (by simp)

/-- Second pass, the regex `<@&\d+>` (role mentions) removed.  The scan is
fuel-indexed to stay structurally recursive: every step consumes at least
one character (a successful match consumes at least five, via
`mentionTail_length`), so fuel equal to the input length is exhausted only
on the empty input, where the scan is over anyway. -/
def stripRoleMentionsAux : Nat → List Char → List Char
  | 0, l => l
  | fuel + 1, l =>
    match l with
    | '<' :: '@' :: '&' :: rest =>
      match mentionTail rest with
      | some rest2 => stripRoleMentionsAux fuel rest2
      | none => '<' :: stripRoleMentionsAux fuel ('@' :: '&' :: rest)
    | c :: rest => c :: stripRoleMentionsAux fuel rest
    | [] => []

def stripRoleMentions (l : List Char) : List Char := stripRoleMentionsAux l.length l

/-- Third pass, the regex `<@!?\d+>` (user mentions, optional nickname
bang) removed; fuel-indexed like the role pass.  The optional `!` is
committed exactly when the next character is `!`, since a digit can never
follow an unconsumed `!`. -/
def stripUserMentionsAux : Nat → List Char → List Char
  | 0, l => l
  | fuel + 1, l =>
    match l with
    | '<' :: '@' :: '!' :: rest =>
      match mentionTail rest with
      | some rest2 => stripUserMentionsAux fuel rest2
      | none => '<' :: stripUserMentionsAux fuel ('@' :: '!' :: rest)
    | '<' :: '@' :: rest =>
      match mentionTail rest with
      | some rest2 => stripUserMentionsAux fuel rest2
      | none => '<' :: stripUserMentionsAux fuel ('@' :: rest)
    | c :: rest => c :: stripUserMentionsAux fuel rest
    | [] => []

def stripUserMentions (l : List Char) : List Char := stripUserMentionsAux l.length l

/-- Fourth pass, the regex `<#\d+>` (channel mentions) removed;
fuel-indexed like the role pass. -/
def stripChannelMentionsAux : Nat → List Char → List Char
  | 0, l => l
  | fuel + 1, l =>
    match l with
    | '<' :: '#' :: rest =>
      match mentionTail rest with
      | some rest2 => stripChannelMentionsAux fuel rest2
      | none => '<' :: stripChannelMentionsAux fuel ('#' :: rest)
    | c :: rest => c :: stripChannelMentionsAux fuel rest
    | [] => []

def stripChannelMentions (l : List Char) : List Char := stripChannelMentionsAux l.length l

/-- `String.prototype.trim`: whitespace removed from both ends. -/
def trimChars (l : List Char) : List Char :=
  ((l.dropWhile Char.isWhitespace).reverse.dropWhile Char.isWhitespace).reverse

/-- `sanitizeText`: the four mention-stripping passes, trim, then
truncation to `maxChars`. -/
def sanitizeText (maxChars : Nat) (text : List Char) : List Char :=
  let s := trimChars (stripChannelMentions (stripUserMentions
    (stripRoleMentions (stripMentionsEveryone text))))
  if maxChars < s.length then s.take maxChars else s

/-- Whitespace tokenization, `text.split(/\s+/).filter(Boolean)`:
maximal nonempty runs of non-whitespace characters, in order. -/
def splitWsAux : List Char → List Char → List (List Char)
  | [], cur => if cur.isEmpty then [] else [cur.reverse]
  | c :: rest, cur =>
    if c.isWhitespace then
      if cur.isEmpty then splitWsAux rest [] else cur.reverse :: splitWsAux rest []
    else splitWsAux rest (c :: cur)

def splitWs (text : List Char) : List (List Char) := splitWsAux text []

/-- Token normalization for the sound lookup: lowercase, then strip
leading and trailing characters outside `[a-z0-9]` (the regex
`^[^a-z0-9]+|[^a-z0-9]+$` with the `i` flag).  ASCII case mapping. -/
def isRegexAlnum (c : Char) : Bool := c.isAlpha || c.isDigit

def normalizeToken (raw : List Char) : List Char :=
  (((raw.map Char.toLower).dropWhile fun c => !isRegexAlnum c).reverse.dropWhile
    fun c => !isRegexAlnum c).reverse

/-- Tokens rejoined with single spaces (`buffer.join(' ')`). -/
def joinSpaces (toks : List (List Char)) : List Char :=
  List.intercalate [' '] toks

theorem lengthDropWhileLe (p : α → Bool) (l : List α) :
    (l.dropWhile p).length ≤ l.length := by
  induction l with
  | nil => simp
  | cons a as ih =>
    by_cases h : p a
    · rw [List.dropWhile_cons_of_pos h]
      simp only [List.length_cons]
      omega
    · rw [List.dropWhile_cons_of_neg h]

/-- The `flush` closure of `splitIntoSegments`. -/
def segFlush (buffer : List (List Char)) : List Segment :=
  if buffer.isEmpty then [] else [Segment.tts (joinSpaces buffer)]

/-- The token loop of `splitIntoSegments`, carrying the buffer of pending
speech tokens.  The scrutinee mirrors `token ? resolveSoundFile(token) :
null` (an empty normalized token is never looked up). -/
def segGo (lib : SoundLib) : List (List Char) → List (List Char) → List Segment
  | [], buffer => segFlush buffer
  | raw :: rest, buffer =>
    match (if (normalizeToken raw).isEmpty then none else lib (normalizeToken raw)) with
    | some fp =>
      segFlush buffer ++ Segment.sound (normalizeToken raw) fp :: segGo lib rest []
    | none => segGo lib rest (buffer ++ [raw])

/-- `splitIntoSegments`: whitespace tokens, each tested (after
normalization) against the sound library; runs of non-matching tokens are
flushed as one speech segment, matches become standalone sound segments. -/
def splitIntoSegments (lib : SoundLib) (text : List Char) : List Segment :=
  segGo lib (splitWs text) []

/-- Does a raw token resolve to a sound? -/
def isSoundTok (lib : SoundLib) (raw : List Char) : Bool :=
  !(normalizeToken raw).isEmpty && (lib (normalizeToken raw)).isSome

/-- Modelled from the spec's words (segmentation policy): every maximal
run of non-matching tokens becomes exactly one speech segment holding the
tokens rejoined with single spaces, and every matching token becomes one
standalone sound segment, preserving input order.  Stated independently of
the source's accumulator loop, for the refinement theorem. -/
def specSegments (lib : SoundLib) : List (List Char) → List Segment
  | [] => []
  | t :: rest =>
    if isSoundTok lib t then
      Segment.sound (normalizeToken t) ((lib (normalizeToken t)).getD []) ::
        specSegments lib rest
    else
      Segment.tts (joinSpaces ((t :: rest).takeWhile fun r => !isSoundTok lib r)) ::
        specSegments lib ((t :: rest).dropWhile fun r => !isSoundTok lib r)
termination_by toks => toks.length
decreasing_by
  all_goals simp
  · rename_i h
    have h1 : (rest.dropWhile fun r => !isSoundTok lib r).length ≤ rest.length :=
      lengthDropWhileLe _ rest
    rw [List.dropWhile_cons_of_pos (by simp [h])]
    omega

/-- The segment-expansion loop of `enqueue`: each segment consumes a
request-id index; speech segments are re-sanitized and dropped when that
leaves nothing. -/
def expandSegments (maxChars : Nat) : List Segment → Nat → List QueueItem
  | [], _ => []
  | Segment.sound key fp :: rest, i =>
    QueueItem.sound key fp i :: expandSegments maxChars rest (i + 1)
  | Segment.tts t :: rest, i =>
    if (sanitizeText maxChars t).isEmpty then expandSegments maxChars rest (i + 1)
    else QueueItem.tts (sanitizeText maxChars t) i :: expandSegments maxChars rest (i + 1)

/-- The per-guild maps of the queue component (`queues`,
`lastRequestTime`, `currentConnections`); the audio players and
subscriptions are external handles and carry no modelled state. -/
structure TtsQueueState where
  queues : Nat → Option (List QueueItem)
  lastRequestTime : Nat → Option Nat
  currentConnections : Nat → Option Nat

/-- A queue state with no guild entries. -/
def emptyTtsState : TtsQueueState :=
  { queues := fun _ => none, lastRequestTime := fun _ => none,
    currentConnections := fun _ => none }

/-- Point update of a per-guild map. -/
def upd (m : Nat → Option α) (k : Nat) (v : α) : Nat → Option α :=
  fun k' => if k' = k then some v else m k'

/-- `checkRateLimit`: compare against the recorded timestamp (default 0),
record `now` exactly when the gate passes.  `Nat` truncated subtraction
agrees with the source's signed comparison whenever the interval is
positive. -/
def checkRateLimit (cfg : TtsConfig) (now g : Nat) (lastMap : Nat → Option Nat) :
    Bool × (Nat → Option Nat) :=
  let last := (lastMap g).getD 0
  if now - last < cfg.minRequestInterval then (false, lastMap)
  else (true, upd lastMap g now)

/-- `enqueue(guildId, text, connection)`: rate-limit gate, connection
recording, sanitization, empty rejection, segment expansion, queue push.
The trailing `processQueue` trigger only reads the produced state. -/
def enqueue (lib : SoundLib) (cfg : TtsConfig) (now g : Nat)
    (text : List Char) (conn : Nat) (st : TtsQueueState) :
    TtsQueueState × Except TtsError Unit :=
  match checkRateLimit cfg now g st.lastRequestTime with
  | (false, _) => (st, Except.error TtsError.rateLimited)
  | (true, lastMap) =>
    let st1 := { st with lastRequestTime := lastMap,
                         currentConnections := upd st.currentConnections g conn }
    let sanitized := sanitizeText cfg.maxChars text
    if sanitized.isEmpty then (st1, Except.error TtsError.emptyAfterSanitization)
    else
      let queue0 := (st1.queues g).getD []
      let items := expandSegments cfg.maxChars (splitIntoSegments lib sanitized) 0
      ({ st1 with queues := upd st1.queues g (queue0 ++ items) }, Except.ok ())

end TtsQueue

/-! ## The owner-follow coordinator (`VoiceFollower`) -/

/-- The classified transition of a debounced owner voice-state update. -/
inductive FollowAction
  | joinChannel (channelId : Nat)
  | moveChannel (channelId : Nat)
  | leaveGuild
  | ignore
deriving DecidableEq, Repr

namespace VoiceFollower

/-- `processVoiceStateUpdate`'s four-way classification of the before and
after channel ids. -/
def classifyTransition (oldChannel newChannel : Option Nat) : FollowAction :=
  match oldChannel, newChannel with
  | none, some c => FollowAction.joinChannel c
  | some a, some b => if a ≠ b then FollowAction.moveChannel b else FollowAction.ignore
  | some _, none => FollowAction.leaveGuild
  | none, none => FollowAction.ignore

/-- `handleOwnerLeave`: when the guild's 24/7 persistent flag is set the
leave is suppressed entirely; otherwise the supervisor's `leave` runs.
The boolean reports whether `leave` was invoked. -/
def handleOwnerLeave (persistent : Bool) (sess : Option GuildVoiceState) :
    Option GuildVoiceState × Bool :=
  if persistent then (sess, false)
  else ((VoiceManager.leave sess).1, true)

end VoiceFollower

/-! ## Example environments and sessions -/

/-- Environment in which every connect attempt receives the ready signal,
yielding the handle `connId`. -/
def envAllSuccess (connId : Nat) : VoiceEnv :=
  { outcome := fun _ => AttemptOutcome.success connId, jitterSample := fun _ => 0 }

/-- Environment in which every connect attempt fails with `errId`. -/
def envAllFail (errId : Nat) : VoiceEnv :=
  { outcome := fun _ => AttemptOutcome.failure errId, jitterSample := fun _ => 0 }

/-- A session holding a live connection: state `Ready`, connection 1 bound
to channel 5 (the committed result of a successful join). -/
def readySession : GuildVoiceState :=
  { state := VoiceState.Ready, connection := some 1, channelId := some 5,
    retries := 0, lastError := none }

/-! ## Lemmas about the retry loop -/

theorem sessionInv_of_cleared {s : GuildVoiceState} (hc : s.connection = none)
    (hch : s.channelId = none) (hs : s.state ≠ VoiceState.Ready) : sessionInv s := by
  constructor
  · rw [hc]
    simp [hs]
  · rw [hc, hch]

theorem sessionInv_readyState (s : GuildVoiceState) (ch c : Nat) :
    sessionInv (VoiceManager.readyState s ch c) := by
  constructor <;> simp [VoiceManager.readyState]

/-- Every session snapshot observable during the retry loop satisfies the
invariant, and so does the final session, provided the loop starts with no
stored connection and no stored channel id. -/
theorem joinRetriesAux_inv (cfg : VoiceConfig) (env : VoiceEnv) (ch : Nat) :
    ∀ (remaining attemptIx : Nat) (s : GuildVoiceState),
      s.connection = none → s.channelId = none →
      (∀ t ∈ traceSnapshots
          (VoiceManager.joinRetriesAux cfg env ch remaining attemptIx s).trace,
        sessionInv t) ∧
      sessionInv (VoiceManager.joinRetriesAux cfg env ch remaining attemptIx s).finalState := by
  intro remaining
  induction remaining with
  | zero =>
    intro ix s hc hch
    rw [VoiceManager.joinRetriesAux]
    cases houtcome : env.outcome ix with
    | success connId =>
      refine ⟨?_, ?_⟩
      · intro t ht
        simp [houtcome, traceSnapshots] at ht
        subst ht
        exact sessionInv_of_cleared hc hch (by simp [VoiceManager.connectingSnapshot])
      · simpa [houtcome] using
          sessionInv_readyState (VoiceManager.connectingSnapshot s) ch connId
    | failure errId =>
      refine ⟨?_, ?_⟩
      · intro t ht
        simp [houtcome, traceSnapshots, hc] at ht
        subst ht
        exact sessionInv_of_cleared hc hch (by simp [VoiceManager.connectingSnapshot])
      · exact sessionInv_of_cleared (by simp [houtcome,
          VoiceManager.failedCleanup, VoiceManager.connectingSnapshot])
          (by simp [houtcome, VoiceManager.failedCleanup,
            VoiceManager.connectingSnapshot])
          (by simp [houtcome])
  | succ r ih =>
    intro ix s hc hch
    rw [VoiceManager.joinRetriesAux]
    cases houtcome : env.outcome ix with
    | success connId =>
      refine ⟨?_, ?_⟩
      · intro t ht
        simp [houtcome, traceSnapshots] at ht
        subst ht
        exact sessionInv_of_cleared hc hch (by simp [VoiceManager.connectingSnapshot])
      · simpa [houtcome] using
          sessionInv_readyState (VoiceManager.connectingSnapshot s) ch connId
    | failure errId =>
      have hrest := ih (ix + 1)
        { VoiceManager.failedCleanup (VoiceManager.connectingSnapshot s) errId with
          retries := (VoiceManager.failedCleanup (VoiceManager.connectingSnapshot s) errId).retries + 1
          state := VoiceState.Backoff }
        (by simp [VoiceManager.failedCleanup, VoiceManager.connectingSnapshot])
        (by simp [VoiceManager.failedCleanup, VoiceManager.connectingSnapshot])
      refine ⟨?_, ?_⟩
      · intro t ht
        simp only [houtcome, traceSnapshots, hc,
          List.filterMap_cons, List.filterMap_append, Option.toList_none, List.map_nil,
          List.filterMap_nil, List.nil_append, List.mem_cons, List.mem_append] at ht
        rcases ht with ht | ht | ht
        · subst ht
          exact sessionInv_of_cleared hc hch (by simp [VoiceManager.connectingSnapshot])
        · subst ht
          exact sessionInv_of_cleared
            (by simp [VoiceManager.failedCleanup, VoiceManager.connectingSnapshot])
            (by simp [VoiceManager.failedCleanup, VoiceManager.connectingSnapshot])
            (by simp)
        · exact hrest.1 t (by simpa [traceSnapshots] using ht)
      · simpa [houtcome] using hrest.2

/-! ## C1: the session invariant at observable points -/

/-- C1, counterexample.  A `join` issued while the guild already holds a
live connection (session `Ready`, connection 1, channel 5) exposes, at the
suspension point where the connect attempt awaits the ready signal, a
session whose state is `Connecting` while the superseded connection and
channel id are still stored — violating the claimed invariant that
`connection` is present iff the state is `Ready`. -/
theorem C1_join_over_live_connection_breaks_inv :
    GuildVoiceState.mk VoiceState.Connecting (some 1) (some 5) 0 none ∈
      traceSnapshots
        (VoiceManager.join defaultVoiceConfig (envAllSuccess 2) 7 0 readySession).trace ∧
    ¬ sessionInv (GuildVoiceState.mk VoiceState.Connecting (some 1) (some 5) 0 none) := by
  decide

/-- C1, amended: `connection` is present iff the state is `Ready` and
`channelId` is present iff `connection` is, at every suspension point and
at completion, for every `join` begun while the guild stores no connection,
for every `move` begun from a session satisfying the invariant, and for
every `leave`; a `join` issued while the guild already holds a live
connection is the exception — it keeps the superseded connection and
channel id visible with state `Connecting` until the attempt resolves. -/
theorem C1_invariant_at_observable_points (cfg : VoiceConfig) (env : VoiceEnv)
    (ch ix : Nat) (s : GuildVoiceState) (hs : sessionInv s) :
    (s.connection = none →
      (∀ t ∈ traceSnapshots (VoiceManager.join cfg env ch ix s).trace, sessionInv t) ∧
      sessionInv (VoiceManager.join cfg env ch ix s).finalState) ∧
    ((∀ t ∈ traceSnapshots (VoiceManager.move cfg env ch ix s).trace, sessionInv t) ∧
      sessionInv (VoiceManager.move cfg env ch ix s).finalState) ∧
    (∀ s' evs, VoiceManager.leave (some s) = (some s', evs) → sessionInv s') := by
  refine ⟨?_, ?_, ?_⟩
  · intro hc
    have hch : s.channelId = none := by
      have h2 := hs.2
      rw [hc] at h2
      simp at h2
      exact Option.not_isSome_iff_eq_none.mp (by simp [h2])
    have h := joinRetriesAux_inv cfg env ch (cfg.maxRetries - s.retries) ix s hc hch
    constructor
    · intro t ht
      simp [VoiceManager.join, VoiceManager.joinUnlockedWithRetries, traceSnapshots] at ht
      exact h.1 t (by simpa [traceSnapshots] using ht)
    · simpa [VoiceManager.join, VoiceManager.joinUnlockedWithRetries] using h.2
  · cases hc : s.connection with
    | some oldConn =>
      have h := joinRetriesAux_inv cfg env ch
        (cfg.maxRetries - s.retries) ix
        { s with state := VoiceState.Moving, connection := none, channelId := none }
        (by simp) (by simp)
      constructor
      · intro t ht
        simp [VoiceManager.move, hc, VoiceManager.joinUnlockedWithRetries,
          traceSnapshots] at ht
        exact h.1 t (by simpa [traceSnapshots] using ht)
      · simpa [VoiceManager.move, hc, VoiceManager.joinUnlockedWithRetries] using h.2
    | none =>
      have hch : s.channelId = none := by
        have h2 := hs.2
        rw [hc] at h2
        simp at h2
        exact Option.not_isSome_iff_eq_none.mp (by simp [h2])
      have h := joinRetriesAux_inv cfg env ch (cfg.maxRetries - s.retries) ix
        { state := VoiceState.Moving, connection := none, channelId := s.channelId,
          retries := s.retries, lastError := s.lastError } rfl hch
      constructor
      · intro t ht
        simp [VoiceManager.move, hc, VoiceManager.joinUnlockedWithRetries,
          traceSnapshots] at ht
        exact h.1 t (by simpa [traceSnapshots] using ht)
      · simpa [VoiceManager.move, hc, VoiceManager.joinUnlockedWithRetries] using h.2
  · intro s' evs hleave
    cases hc : s.connection with
    | none =>
      simp [VoiceManager.leave, hc] at hleave
      rw [← hleave.1]
      exact hs
    | some c =>
      simp [VoiceManager.leave, hc] at hleave
      rw [← hleave.1]
      constructor <;> simp

/-- C1 witness: the amended theorem applied to an idle fresh session. -/
theorem C1_invariant_at_observable_points_witness :
    sessionInv (VoiceManager.join defaultVoiceConfig (envAllSuccess 2) 7 0 freshSession).finalState ∧
    sessionInv (VoiceManager.move defaultVoiceConfig (envAllSuccess 2) 7 0 freshSession).finalState := by
  have h := C1_invariant_at_observable_points defaultVoiceConfig (envAllSuccess 2) 7 0
    freshSession (by decide)
  exact ⟨(h.1 (by decide)).2, h.2.1.2⟩

/-! ## C2: signals from superseded connections -/

/-- C2, counterexample.  The guild's current session holds connection 2,
yet the `Destroyed` handler registered for the superseded connection 1
still resets the session (it looks the session up by guild id alone):
the claim that stale signals never mutate current state is false. -/
theorem C2_stale_destroyed_signal_mutates_state :
    (GuildVoiceState.mk VoiceState.Ready (some 2) (some 5) 0 none).connection ≠ some 1 ∧
    VoiceManager.onDestroyed 1
        (some (GuildVoiceState.mk VoiceState.Ready (some 2) (some 5) 0 none)) ≠
      some (GuildVoiceState.mk VoiceState.Ready (some 2) (some 5) 0 none) := by
  decide

/-- C2, amended: the supervisor's `Destroyed` and permanent-`Disconnected`
handlers reset the guild's session by guild id alone — whatever connection
instance they were registered for, any existing session is reset to `Idle`
with `connection` and `channelId` cleared and `retries` zeroed, so a late
signal from a superseded connection does mutate the current session (the
permanent-`Disconnected` handler destroys its own registered instance). -/
theorem C2_handlers_reset_by_guild_id (registeredConn : Nat) (st : GuildVoiceState) :
    VoiceManager.onDestroyed registeredConn (some st) =
      some (VoiceManager.sessionReset st) ∧
    (VoiceManager.onDisconnectedPermanent registeredConn (some st)).1 =
      some (VoiceManager.sessionReset st) ∧
    (VoiceManager.sessionReset st).state = VoiceState.Idle ∧
    (VoiceManager.sessionReset st).connection = none ∧
    (VoiceManager.sessionReset st).channelId = none ∧
    (VoiceManager.sessionReset st).retries = 0 ∧
    destroyedConns (VoiceManager.onDisconnectedPermanent registeredConn (some st)).2 =
      [registeredConn] := by
  simp [VoiceManager.onDestroyed, VoiceManager.onDisconnectedPermanent,
    VoiceManager.sessionReset, destroyedConns]

/-! ## C3: termination of `join` -/

/-- The retry loop either returns the fresh connection with the session
committed `Ready`, or gives up after spending its whole retry budget plus
the initial attempt, leaving the session `Idle`, retries zeroed, nothing
stored. -/
theorem joinRetriesAux_terminates (cfg : VoiceConfig) (env : VoiceEnv) (ch : Nat) :
    ∀ (remaining attemptIx : Nat) (s : GuildVoiceState),
      (∃ c, (VoiceManager.joinRetriesAux cfg env ch remaining attemptIx s).result =
          Except.ok c ∧
        (VoiceManager.joinRetriesAux cfg env ch remaining attemptIx s).finalState.state =
          VoiceState.Ready ∧
        (VoiceManager.joinRetriesAux cfg env ch remaining attemptIx s).finalState.connection =
          some c ∧
        (VoiceManager.joinRetriesAux cfg env ch remaining attemptIx s).finalState.channelId =
          some ch ∧
        (VoiceManager.joinRetriesAux cfg env ch remaining attemptIx s).finalState.retries = 0) ∨
      (∃ e, (VoiceManager.joinRetriesAux cfg env ch remaining attemptIx s).result =
          Except.error e ∧
        (VoiceManager.joinRetriesAux cfg env ch remaining attemptIx s).finalState.state =
          VoiceState.Idle ∧
        (VoiceManager.joinRetriesAux cfg env ch remaining attemptIx s).finalState.retries = 0 ∧
        (VoiceManager.joinRetriesAux cfg env ch remaining attemptIx s).finalState.connection =
          none ∧
        (VoiceManager.joinRetriesAux cfg env ch remaining attemptIx s).finalState.channelId =
          none ∧
        (VoiceManager.joinRetriesAux cfg env ch remaining attemptIx s).attempts =
          remaining + 1) := by
  intro remaining
  induction remaining with
  | zero =>
    intro ix s
    rw [VoiceManager.joinRetriesAux]
    cases houtcome : env.outcome ix with
    | success connId =>
      exact Or.inl ⟨connId, by simp [houtcome, VoiceManager.readyState]⟩
    | failure errId =>
      exact Or.inr ⟨errId, by simp [houtcome, VoiceManager.failedCleanup,
        VoiceManager.connectingSnapshot]⟩
  | succ r ih =>
    intro ix s
    rw [VoiceManager.joinRetriesAux]
    cases houtcome : env.outcome ix with
    | success connId =>
      exact Or.inl ⟨connId, by simp [houtcome, VoiceManager.readyState]⟩
    | failure errId =>
      rcases ih (ix + 1)
        { VoiceManager.failedCleanup (VoiceManager.connectingSnapshot s) errId with
          retries := (VoiceManager.failedCleanup (VoiceManager.connectingSnapshot s)
            errId).retries + 1
          state := VoiceState.Backoff } with
        ⟨c, hres, hst, hconn, hchan, hret⟩ | ⟨e, hres, hst, hret, hconn, hchan, hatt⟩
      · exact Or.inl ⟨c, by simp [houtcome, hres, hst, hconn, hchan, hret]⟩
      · exact Or.inr ⟨e, by simp [houtcome, hres, hst, hconn, hchan, hret, hatt]⟩

/-- C3: every `join` call terminates either successfully, with the session
`Ready` and the connection stored, or — only after the initial attempt
plus all `maxRetries` retries have failed — by raising the error with the
session reset to `Idle`, `retries` zeroed and no connection stored; the
final state is never `Connecting` or `Backoff`. -/
theorem C3_join_terminates_ready_or_idle (cfg : VoiceConfig) (env : VoiceEnv)
    (ch ix : Nat) (s : GuildVoiceState) (hretries : s.retries = 0) :
    (∃ c, (VoiceManager.join cfg env ch ix s).result = Except.ok c ∧
      (VoiceManager.join cfg env ch ix s).finalState.state = VoiceState.Ready ∧
      (VoiceManager.join cfg env ch ix s).finalState.connection = some c ∧
      (VoiceManager.join cfg env ch ix s).finalState.channelId = some ch) ∨
    (∃ e, (VoiceManager.join cfg env ch ix s).result = Except.error e ∧
      (VoiceManager.join cfg env ch ix s).finalState.state = VoiceState.Idle ∧
      (VoiceManager.join cfg env ch ix s).finalState.retries = 0 ∧
      (VoiceManager.join cfg env ch ix s).finalState.connection = none ∧
      (VoiceManager.join cfg env ch ix s).attempts = cfg.maxRetries + 1) := by
  have h := joinRetriesAux_terminates cfg env ch (cfg.maxRetries - s.retries) ix s
  rw [hretries, Nat.sub_zero] at h
  rcases h with ⟨c, hres, hst, hconn, hchan, _⟩ | ⟨e, hres, hst, hret, hconn, _, hatt⟩
  · exact Or.inl ⟨c, by simp [VoiceManager.join, VoiceManager.joinUnlockedWithRetries,
      hretries, hres, hst, hconn, hchan]⟩
  · exact Or.inr ⟨e, by simp [VoiceManager.join, VoiceManager.joinUnlockedWithRetries,
      hretries, hres, hst, hret, hconn, hatt]⟩

/-- C3 witness: the theorem applied to a fresh session under an
environment where every attempt fails. -/
theorem C3_join_terminates_ready_or_idle_witness :
    (∃ c, (VoiceManager.join defaultVoiceConfig (envAllFail 9) 7 0 freshSession).result =
        Except.ok c ∧
      (VoiceManager.join defaultVoiceConfig (envAllFail 9) 7 0 freshSession).finalState.state =
        VoiceState.Ready ∧
      (VoiceManager.join defaultVoiceConfig (envAllFail 9) 7 0 freshSession).finalState.connection =
        some c ∧
      (VoiceManager.join defaultVoiceConfig (envAllFail 9) 7 0 freshSession).finalState.channelId =
        some 7) ∨
    (∃ e, (VoiceManager.join defaultVoiceConfig (envAllFail 9) 7 0 freshSession).result =
        Except.error e ∧
      (VoiceManager.join defaultVoiceConfig (envAllFail 9) 7 0 freshSession).finalState.state =
        VoiceState.Idle ∧
      (VoiceManager.join defaultVoiceConfig (envAllFail 9) 7 0 freshSession).finalState.retries = 0 ∧
      (VoiceManager.join defaultVoiceConfig (envAllFail 9) 7 0 freshSession).finalState.connection =
        none ∧
      (VoiceManager.join defaultVoiceConfig (envAllFail 9) 7 0 freshSession).attempts =
        defaultVoiceConfig.maxRetries + 1) :=
  C3_join_terminates_ready_or_idle defaultVoiceConfig (envAllFail 9) 7 0 freshSession rfl

/-! ## C4: backoff delays -/

theorem rangeMapShift (f g : Nat → ℚ) (r : Nat) (hfg : ∀ k, g k = f (k + 1)) :
    f 0 :: (List.range r).map g = (List.range (r + 1)).map f := by
  rw [List.range_succ_eq_map, List.map_cons, List.map_map]
  congr 1
  apply List.map_congr_left
  intro k _
  simp [Function.comp, hfg k]

theorem traceSleeps_nil : traceSleeps [] = [] := rfl

theorem traceSleeps_cons_snapshot (s : GuildVoiceState) (t : List TraceEv) :
    traceSleeps (TraceEv.snapshot s :: t) = traceSleeps t := rfl

theorem traceSleeps_cons_destroy (c : Nat) (t : List TraceEv) :
    traceSleeps (TraceEv.destroyConn c :: t) = traceSleeps t := rfl

theorem traceSleeps_cons_lock (t : List TraceEv) :
    traceSleeps (TraceEv.lockAcquire :: t) = traceSleeps t := rfl

theorem traceSleeps_cons_sleep (d : ℚ) (t : List TraceEv) :
    traceSleeps (TraceEv.sleep d :: t) = d :: traceSleeps t := rfl

theorem traceSleeps_append (t1 t2 : List TraceEv) :
    traceSleeps (t1 ++ t2) = traceSleeps t1 ++ traceSleeps t2 := by
  simp [traceSleeps]

/-- In an environment where every attempt fails, the retry loop sleeps
exactly once per retry, for `calculateBackoff` evaluated at the freshly
incremented retry counter and that attempt's jitter sample. -/
theorem joinRetriesAux_sleeps (cfg : VoiceConfig) (env : VoiceEnv) (ch : Nat)
    (hfail : ∀ k, (env.outcome k).isFailure = true) :
    ∀ (remaining attemptIx : Nat) (s : GuildVoiceState),
      traceSleeps (VoiceManager.joinRetriesAux cfg env ch remaining attemptIx s).trace =
        (List.range remaining).map fun k =>
          VoiceManager.calculateBackoff cfg (s.retries + k + 1)
            (env.jitterSample (attemptIx + k)) := by
  intro remaining
  induction remaining with
  | zero =>
    intro ix s
    obtain ⟨errId, houtcome⟩ : ∃ e, env.outcome ix = AttemptOutcome.failure e := by
      cases h : env.outcome ix with
      | success c =>
        have hf := hfail ix
        rw [h] at hf
        simp [AttemptOutcome.isFailure] at hf
      | failure e => exact ⟨e, rfl⟩
    rw [VoiceManager.joinRetriesAux]
    cases hc : s.connection <;>
      simp [houtcome, hc, traceSleeps_cons_snapshot, traceSleeps_cons_destroy,
        traceSleeps_nil]
  | succ r ih =>
    intro ix s
    obtain ⟨errId, houtcome⟩ : ∃ e, env.outcome ix = AttemptOutcome.failure e := by
      cases h : env.outcome ix with
      | success c =>
        have hf := hfail ix
        rw [h] at hf
        simp [AttemptOutcome.isFailure] at hf
      | failure e => exact ⟨e, rfl⟩
    rw [VoiceManager.joinRetriesAux]
    cases hc : s.connection with
    | none =>
      simp only [houtcome, hc, Option.toList_none, List.map_nil, List.nil_append,
        traceSleeps_cons_snapshot, traceSleeps_cons_sleep, VoiceManager.failedCleanup,
        VoiceManager.connectingSnapshot, ih]
      exact rangeMapShift
        (fun k => VoiceManager.calculateBackoff cfg (s.retries + k + 1)
          (env.jitterSample (ix + k)))
        (fun k => VoiceManager.calculateBackoff cfg (s.retries + 1 + k + 1)
          (env.jitterSample (ix + 1 + k))) r
        (by
          intro k
          have h1 : s.retries + 1 + k + 1 = s.retries + (k + 1) + 1 := by omega
          have h2 : ix + 1 + k = ix + (k + 1) := by omega
          simp only [h1, h2])
    | some c =>
      simp only [houtcome, hc, Option.toList_some, List.map_cons, List.map_nil,
        List.cons_append, List.nil_append, traceSleeps_cons_snapshot,
        traceSleeps_cons_destroy, traceSleeps_cons_sleep, VoiceManager.failedCleanup,
        VoiceManager.connectingSnapshot, ih]
      exact rangeMapShift
        (fun k => VoiceManager.calculateBackoff cfg (s.retries + k + 1)
          (env.jitterSample (ix + k)))
        (fun k => VoiceManager.calculateBackoff cfg (s.retries + 1 + k + 1)
          (env.jitterSample (ix + 1 + k))) r
        (by
          intro k
          have h1 : s.retries + 1 + k + 1 = s.retries + (k + 1) + 1 := by omega
          have h2 : ix + 1 + k = ix + (k + 1) := by omega
          simp only [h1, h2])

/-- C4: under persistent connect failure, the delay slept before the n-th
retry is `min(base * 2^n, backoffMax) * (1 + jitter * 0.3)` at that
retry's jitter sample; below the cap each delay lies in
`[base * 2^n, base * 2^n * 1.3]` and consecutive delays are non-decreasing
for any jitter samples in `[0, 1]`. -/
theorem C4_backoff_formula_and_bounds (cfg : VoiceConfig) (env : VoiceEnv)
    (ch ix n : Nat) (j j' : ℚ) (s : GuildVoiceState)
    (hretries : s.retries = 0)
    (hfail : ∀ k, (env.outcome k).isFailure = true)
    (hj0 : 0 ≤ j) (hj1 : j ≤ 1) (hj2 : 0 ≤ j') (hj3 : j' ≤ 1)
    (hcap : (cfg.backoffBase : ℚ) * 2 ^ (n + 1) ≤ (cfg.backoffMax : ℚ)) :
    traceSleeps (VoiceManager.join cfg env ch ix s).trace =
      (List.range cfg.maxRetries).map (fun k =>
        VoiceManager.calculateBackoff cfg (k + 1) (env.jitterSample (ix + k))) ∧
    VoiceManager.calculateBackoff cfg n j =
      min ((cfg.backoffBase : ℚ) * 2 ^ n) (cfg.backoffMax : ℚ) * (1 + j * (3 / 10)) ∧
    (cfg.backoffBase : ℚ) * 2 ^ n ≤ VoiceManager.calculateBackoff cfg n j ∧
    VoiceManager.calculateBackoff cfg n j ≤ (cfg.backoffBase : ℚ) * 2 ^ n * (13 / 10) ∧
    VoiceManager.calculateBackoff cfg n j ≤ VoiceManager.calculateBackoff cfg (n + 1) j' := by
  have hbase : (0 : ℚ) ≤ (cfg.backoffBase : ℚ) := Nat.cast_nonneg _
  have hpow : (0 : ℚ) ≤ (cfg.backoffBase : ℚ) * 2 ^ n := by positivity
  have hstep : (cfg.backoffBase : ℚ) * 2 ^ n ≤ (cfg.backoffBase : ℚ) * 2 ^ (n + 1) := by
    have h2 : (2 : ℚ) ^ n ≤ 2 ^ (n + 1) := by
      apply pow_le_pow_right₀ (by norm_num)
      omega
    exact mul_le_mul_of_nonneg_left h2 hbase
  have hcapn : (cfg.backoffBase : ℚ) * 2 ^ n ≤ (cfg.backoffMax : ℚ) := le_trans hstep hcap
  have hform : VoiceManager.calculateBackoff cfg n j =
      (cfg.backoffBase : ℚ) * 2 ^ n * (1 + j * (3 / 10)) := by
    simp only [VoiceManager.calculateBackoff, min_eq_left hcapn]
    ring
  have hform' : VoiceManager.calculateBackoff cfg (n + 1) j' =
      (cfg.backoffBase : ℚ) * 2 ^ (n + 1) * (1 + j' * (3 / 10)) := by
    simp only [VoiceManager.calculateBackoff, min_eq_left hcap]
    ring
  refine ⟨?_, ?_, ?_, ?_, ?_⟩
  · have hs := joinRetriesAux_sleeps cfg env ch hfail (cfg.maxRetries - s.retries) ix s
    simp only [hretries, Nat.sub_zero, Nat.zero_add] at hs
    simpa [VoiceManager.join, VoiceManager.joinUnlockedWithRetries, hretries,
      traceSleeps] using hs
  · simp only [VoiceManager.calculateBackoff, min_eq_left hcapn]
    ring
  · rw [hform]
    nlinarith [mul_nonneg hpow hj0]
  · rw [hform]
    nlinarith [mul_nonneg hpow (sub_nonneg.mpr hj1)]
  · rw [hform, hform', pow_succ]
    nlinarith [mul_nonneg hpow hj2, mul_nonneg hpow (sub_nonneg.mpr hj1)]

/-- C4 witness: default configuration, every attempt failing, first and
second retry. -/
theorem C4_backoff_formula_and_bounds_witness :
    traceSleeps (VoiceManager.join defaultVoiceConfig (envAllFail 9) 7 0 freshSession).trace =
      (List.range defaultVoiceConfig.maxRetries).map (fun k =>
        VoiceManager.calculateBackoff defaultVoiceConfig (k + 1)
          ((envAllFail 9).jitterSample (0 + k))) ∧
    VoiceManager.calculateBackoff defaultVoiceConfig 1 0 =
      min ((defaultVoiceConfig.backoffBase : ℚ) * 2 ^ 1) (defaultVoiceConfig.backoffMax : ℚ) *
        (1 + 0 * (3 / 10)) ∧
    (defaultVoiceConfig.backoffBase : ℚ) * 2 ^ 1 ≤
      VoiceManager.calculateBackoff defaultVoiceConfig 1 0 ∧
    VoiceManager.calculateBackoff defaultVoiceConfig 1 0 ≤
      (defaultVoiceConfig.backoffBase : ℚ) * 2 ^ 1 * (13 / 10) ∧
    VoiceManager.calculateBackoff defaultVoiceConfig 1 0 ≤
      VoiceManager.calculateBackoff defaultVoiceConfig (1 + 1) 1 :=
  C4_backoff_formula_and_bounds defaultVoiceConfig (envAllFail 9) 7 0 1 0 1 freshSession rfl
    (fun _ => rfl) (by norm_num) (by norm_num) (by norm_num) (by norm_num)
    (by norm_num [defaultVoiceConfig])

/-! ## C5: `move` after a successful `join` -/

/-- C5: after a successful `join(channelA)` (the attempt receives the ready
signal with handle `connA`) followed by a successful `move(channelB)`
(ready with handle `connB`), the guild session stores exactly the new
connection `connB` bound to `channelB` in state `Ready`; the `move`
destroyed the old connection `connA` and nothing else — in particular not
the new connection — and it acquired the guild lock exactly once, calling
the connect-with-retry routine directly. -/
theorem C5_move_after_join (cfg : VoiceConfig) (env env2 : VoiceEnv)
    (chA chB ixA ixB connA connB : Nat) (s0 : GuildVoiceState)
    (hA : env.outcome ixA = AttemptOutcome.success connA)
    (hB : env2.outcome ixB = AttemptOutcome.success connB)
    (hne : connA ≠ connB) :
    (VoiceManager.join cfg env chA ixA s0).finalState.connection = some connA ∧
    (VoiceManager.join cfg env chA ixA s0).finalState.channelId = some chA ∧
    (VoiceManager.move cfg env2 chB ixB
        (VoiceManager.join cfg env chA ixA s0).finalState).finalState.connection =
      some connB ∧
    (VoiceManager.move cfg env2 chB ixB
        (VoiceManager.join cfg env chA ixA s0).finalState).finalState.channelId =
      some chB ∧
    (VoiceManager.move cfg env2 chB ixB
        (VoiceManager.join cfg env chA ixA s0).finalState).finalState.state =
      VoiceState.Ready ∧
    destroyedConns (VoiceManager.move cfg env2 chB ixB
        (VoiceManager.join cfg env chA ixA s0).finalState).trace = [connA] ∧
    connB ∉ destroyedConns (VoiceManager.move cfg env2 chB ixB
        (VoiceManager.join cfg env chA ixA s0).finalState).trace ∧
    lockAcquisitions (VoiceManager.move cfg env2 chB ixB
        (VoiceManager.join cfg env chA ixA s0).finalState).trace = 1 := by
  have hjoin : (VoiceManager.join cfg env chA ixA s0).finalState =
      VoiceManager.readyState (VoiceManager.connectingSnapshot s0) chA connA := by
    rw [VoiceManager.join, VoiceManager.joinUnlockedWithRetries, VoiceManager.joinRetriesAux]
    cases cfg.maxRetries - s0.retries <;> simp [hA]
  have hmove : VoiceManager.move cfg env2 chB ixB
      (VoiceManager.readyState (VoiceManager.connectingSnapshot s0) chA connA) =
      { finalState := VoiceManager.readyState (VoiceManager.connectingSnapshot
          { state := VoiceState.Moving, connection := none, channelId := none,
            retries := 0, lastError := none }) chB connB
        result := Except.ok connB
        trace := [TraceEv.lockAcquire, TraceEv.destroyConn connA,
          TraceEv.snapshot (VoiceManager.connectingSnapshot
            { state := VoiceState.Moving, connection := none, channelId := none,
              retries := 0, lastError := none })]
        attempts := 1 } := by
    rw [VoiceManager.move]
    simp only [VoiceManager.readyState, VoiceManager.connectingSnapshot]
    rw [VoiceManager.joinUnlockedWithRetries, VoiceManager.joinRetriesAux]
    cases cfg.maxRetries - 0 <;> simp [hB, VoiceManager.readyState,
      VoiceManager.connectingSnapshot]
  rw [hjoin, hmove]
  refine ⟨by simp [VoiceManager.readyState], by simp [VoiceManager.readyState],
    by simp [VoiceManager.readyState], by simp [VoiceManager.readyState],
    by simp [VoiceManager.readyState], by simp [destroyedConns],
    by simp [destroyedConns, hne, Ne.symm hne], by simp [lockAcquisitions]⟩

/-- C5 witness: fresh session, channels 5 and 7, connections 1 and 2. -/
theorem C5_move_after_join_witness :
    (VoiceManager.join defaultVoiceConfig (envAllSuccess 1) 5 0 freshSession).finalState.connection =
      some 1 ∧
    (VoiceManager.join defaultVoiceConfig (envAllSuccess 1) 5 0 freshSession).finalState.channelId =
      some 5 ∧
    (VoiceManager.move defaultVoiceConfig (envAllSuccess 2) 7 0
        (VoiceManager.join defaultVoiceConfig (envAllSuccess 1) 5 0 freshSession).finalState).finalState.connection =
      some 2 ∧
    (VoiceManager.move defaultVoiceConfig (envAllSuccess 2) 7 0
        (VoiceManager.join defaultVoiceConfig (envAllSuccess 1) 5 0 freshSession).finalState).finalState.channelId =
      some 7 ∧
    (VoiceManager.move defaultVoiceConfig (envAllSuccess 2) 7 0
        (VoiceManager.join defaultVoiceConfig (envAllSuccess 1) 5 0 freshSession).finalState).finalState.state =
      VoiceState.Ready ∧
    destroyedConns (VoiceManager.move defaultVoiceConfig (envAllSuccess 2) 7 0
        (VoiceManager.join defaultVoiceConfig (envAllSuccess 1) 5 0 freshSession).finalState).trace =
      [1] ∧
    2 ∉ destroyedConns (VoiceManager.move defaultVoiceConfig (envAllSuccess 2) 7 0
        (VoiceManager.join defaultVoiceConfig (envAllSuccess 1) 5 0 freshSession).finalState).trace ∧
    lockAcquisitions (VoiceManager.move defaultVoiceConfig (envAllSuccess 2) 7 0
        (VoiceManager.join defaultVoiceConfig (envAllSuccess 1) 5 0 freshSession).finalState).trace = 1 :=
  C5_move_after_join defaultVoiceConfig (envAllSuccess 1) (envAllSuccess 2) 5 7 0 0 1 2
    freshSession rfl rfl (by decide)

/-! ## C6: segmentation of sanitized input -/

namespace TtsQueue

theorem takeWhileAll {p : α → Bool} {l : List α} (h : ∀ a ∈ l, p a) :
    l.takeWhile p = l := by
  have h2 := @List.takeWhile_append_of_pos _ p l [] h
  simpa using h2

theorem dropWhileAll {p : α → Bool} {l : List α} (h : ∀ a ∈ l, p a) :
    l.dropWhile p = [] := by
  have h2 := @List.dropWhile_append_of_pos _ p l [] h
  simpa using h2

/-- A successful sound lookup in the token loop means the token is a sound
trigger, resolved to exactly that path. -/
theorem segLookup_some {lib : SoundLib} {raw fp : List Char}
    (h : (if (normalizeToken raw).isEmpty then none
          else lib (normalizeToken raw)) = some fp) :
    isSoundTok lib raw = true ∧ lib (normalizeToken raw) = some fp := by
  by_cases he : (normalizeToken raw).isEmpty
  · rw [if_pos he] at h
    exact absurd h (by simp)
  · rw [if_neg he] at h
    exact ⟨by simp [isSoundTok, h, List.isEmpty_eq_true.not.mp he], h⟩

/-- A failed lookup means the token is not a sound trigger. -/
theorem segLookup_none {lib : SoundLib} {raw : List Char}
    (h : (if (normalizeToken raw).isEmpty then none
          else lib (normalizeToken raw)) = none) :
    isSoundTok lib raw = false := by
  by_cases he : (normalizeToken raw).isEmpty
  · simp [isSoundTok, he]
  · rw [if_neg he] at h
    simp [isSoundTok, h]

/-- A nonempty all-speech token list yields exactly one speech segment
under the spec-side segmentation. -/
theorem specSegments_all_nonsound (lib : SoundLib) (toks : List (List Char))
    (h : ∀ r ∈ toks, isSoundTok lib r = false) (hne : toks ≠ []) :
    specSegments lib toks = [Segment.tts (joinSpaces toks)] := by
  cases toks with
  | nil => exact absurd rfl hne
  | cons t rest =>
    rw [specSegments]
    rw [if_neg (by simp [h t (by simp)])]
    have hall : ∀ r ∈ t :: rest, (fun r => !isSoundTok lib r) r = true := by
      intro r hr
      simp [h r hr]
    rw [takeWhileAll hall, dropWhileAll hall, specSegments]

/-- Splitting a nonempty all-speech run off the front of the token list. -/
theorem specSegments_run_then_sound (lib : SoundLib) (buffer rest2 : List (List Char))
    (hbuf : buffer ≠ []) (hall : ∀ r ∈ buffer, isSoundTok lib r = false)
    (raw : List Char) (hraw : isSoundTok lib raw = true) :
    specSegments lib (buffer ++ raw :: rest2) =
      Segment.tts (joinSpaces buffer) :: specSegments lib (raw :: rest2) := by
  cases buffer with
  | nil => exact absurd rfl hbuf
  | cons b bs =>
    rw [List.cons_append, specSegments]
    rw [if_neg (by simp [hall b (by simp)])]
    have hbs : ∀ r ∈ bs, (fun r => !isSoundTok lib r) r = true := by
      intro r hr
      simp [hall r (by simp [hr])]
    have htw : (b :: (bs ++ raw :: rest2)).takeWhile (fun r => !isSoundTok lib r) =
        b :: bs := by
      rw [List.takeWhile_cons_of_pos (by simp [hall b (by simp)]),
        List.takeWhile_append_of_pos hbs, List.takeWhile_cons_of_neg (by simp [hraw])]
      simp
    have hdw : (b :: (bs ++ raw :: rest2)).dropWhile (fun r => !isSoundTok lib r) =
        raw :: rest2 := by
      rw [List.dropWhile_cons_of_pos (by simp [hall b (by simp)]),
        List.dropWhile_append_of_pos hbs, List.dropWhile_cons_of_neg (by simp [hraw])]
    rw [htw, hdw]

/-- The source's accumulator loop agrees with the spec-side segmentation:
the pending buffer (all speech tokens) is prepended to the remaining
input. -/
theorem segGo_eq_specSegments (lib : SoundLib) :
    ∀ (toks buffer : List (List Char)),
      (∀ r ∈ buffer, isSoundTok lib r = false) →
      segGo lib toks buffer = specSegments lib (buffer ++ toks) := by
  intro toks
  induction toks with
  | nil =>
    intro buffer hb
    rw [segGo, List.append_nil]
    cases hbuf : buffer with
    | nil => rw [segFlush, specSegments]; simp
    | cons b bs =>
      rw [← hbuf, specSegments_all_nonsound lib buffer hb (by simp [hbuf])]
      rw [segFlush, if_neg (by simp [hbuf])]
  | cons raw rest ih =>
    intro buffer hb
    rw [segGo]
    cases hlook : (if (normalizeToken raw).isEmpty then none
        else lib (normalizeToken raw)) with
    | some fp =>
      obtain ⟨hsound, hlib⟩ := segLookup_some hlook
      simp only []
      rw [ih [] (by simp), List.nil_append]
      by_cases hbuf : buffer = []
      · subst hbuf
        rw [List.nil_append, specSegments, if_pos (by simp [hsound])]
        simp [segFlush, hlib]
      · rw [specSegments_run_then_sound lib buffer rest hbuf hb raw hsound,
          specSegments, if_pos (by simp [hsound])]
        rw [segFlush, if_neg (by simp [hbuf])]
        simp [hlib]
    | none =>
      have hns := segLookup_none hlook
      simp only []
      rw [ih (buffer ++ [raw]) ?hallb]
      case hallb =>
        intro r hr
        rcases List.mem_append.mp hr with hr1 | hr2
        · exact hb r hr1
        · rw [List.mem_singleton.mp hr2]
          exact hns
      rw [List.append_assoc, List.singleton_append]

/-- Segment expansion inside `enqueue` preserves the segments, in order,
whenever every speech segment survives its re-sanitization. -/
theorem expandSegments_forgetId (mc : Nat) :
    ∀ (segs : List Segment) (i : Nat),
      (∀ t, Segment.tts t ∈ segs → sanitizeText mc t = t ∧ t ≠ []) →
      (expandSegments mc segs i).map QueueItem.forgetId = segs := by
  intro segs
  induction segs with
  | nil =>
    intro i _
    rfl
  | cons seg rest ih =>
    intro i h
    cases seg with
    | sound k fp =>
      rw [expandSegments]
      simp only [List.map_cons, QueueItem.forgetId]
      rw [ih (i + 1) fun t ht => h t (by simp [ht])]
    | tts t =>
      obtain ⟨hfix, hne⟩ := h t (by simp)
      rw [expandSegments, hfix, if_neg (by simp [hne])]
      simp only [List.map_cons, QueueItem.forgetId]
      rw [ih (i + 1) fun t2 ht2 => h t2 (by simp [ht2])]

/-- C6: on sanitized input (each produced speech segment is itself left
unchanged by re-sanitization), `splitIntoSegments` realizes exactly the
specified policy — whitespace tokens tested against the sound library
after edge-punctuation stripping, every maximal run of non-matching
tokens rejoined with single spaces into exactly one speech segment, every
matching token a standalone sound segment, input order preserved; in
particular all-speech input yields exactly one speech item, and the
`enqueue` expansion pushes exactly these segments in order. -/
theorem C6_segmentation (lib : SoundLib) (mc : Nat) (text : List Char)
    (hfix : ∀ t, Segment.tts t ∈ splitIntoSegments lib text →
      sanitizeText mc t = t ∧ t ≠ []) :
    splitIntoSegments lib text = specSegments lib (splitWs text) ∧
    ((∀ tok ∈ splitWs text, isSoundTok lib tok = false) → splitWs text ≠ [] →
      splitIntoSegments lib text = [Segment.tts (joinSpaces (splitWs text))]) ∧
    (expandSegments mc (splitIntoSegments lib text) 0).map QueueItem.forgetId =
      splitIntoSegments lib text := by
  have hmain : splitIntoSegments lib text = specSegments lib (splitWs text) := by
    rw [splitIntoSegments, segGo_eq_specSegments lib (splitWs text) [] (by simp),
      List.nil_append]
  refine ⟨hmain, ?_, expandSegments_forgetId mc (splitIntoSegments lib text) 0 hfix⟩
  intro hall hne
  rw [hmain, specSegments_all_nonsound lib (splitWs text) hall hne]

/-- The example library of the spec: only the token `hmph` resolves. -/
def hmphLib : SoundLib :=
  fun t => if t = "hmph".toList then some "sounds/hmph.wav".toList else none

/-- C6 witness: the spec's example `"a hmph ok"` yields exactly
Speech("a"), Sound("hmph"), Speech("ok"), matching both the spec-side
segmentation and the enqueue expansion. -/
theorem C6_segmentation_witness :
    splitIntoSegments hmphLib "a hmph ok".toList =
      specSegments hmphLib (splitWs "a hmph ok".toList) ∧
    (expandSegments 200 (splitIntoSegments hmphLib "a hmph ok".toList) 0).map
        QueueItem.forgetId = splitIntoSegments hmphLib "a hmph ok".toList ∧
    splitIntoSegments hmphLib "a hmph ok".toList =
      [Segment.tts "a".toList,
        Segment.sound "hmph".toList "sounds/hmph.wav".toList,
        Segment.tts "ok".toList] := by
  have h := C6_segmentation hmphLib 200 "a hmph ok".toList (by
    intro t ht
    have hseg : splitIntoSegments hmphLib "a hmph ok".toList =
        [Segment.tts "a".toList,
          Segment.sound "hmph".toList "sounds/hmph.wav".toList,
          Segment.tts "ok".toList] := by decide
    rw [hseg] at ht
    simp at ht
    rcases ht with ht | ht <;> subst ht <;> exact ⟨by decide, by decide⟩)
  exact ⟨h.1, h.2.2, by decide⟩

/-! ## C7: the rate-limit gate -/

/-- C7, counterexample.  The first call (at t=1000, empty text) is
rejected with the empty-input error — it is not an accepted call — yet a
second call 100ms later is rejected as rate-limited: `checkRateLimit`
records the timestamp whenever the gate passes, not when the whole call is
accepted, so "within `minRequestInterval` of the previous accepted call"
mischaracterizes the gate. -/
theorem C7_rejected_call_still_rate_limits :
    (enqueue hmphLib defaultTtsConfig 1000 1 [] 5 emptyTtsState).2 =
      Except.error TtsError.emptyAfterSanitization ∧
    (enqueue hmphLib defaultTtsConfig 1100 1 "hello".toList 5
        (enqueue hmphLib defaultTtsConfig 1000 1 [] 5 emptyTtsState).1).2 =
      Except.error TtsError.rateLimited := by
  exact ⟨rfl, rfl⟩

/-- C7, amended: `enqueue` rejects with the rate-limit error exactly when
the call is within `minRequestInterval` of the recorded timestamp — the
last call that passed the gate, whether or not that call was afterwards
rejected for empty input; a rate-limited call leaves the whole queue state
(queue included) unmodified, and a gate-passing call records its own
timestamp. -/
theorem C7_rate_limit_gate (lib : SoundLib) (cfg : TtsConfig) (now g : Nat)
    (text : List Char) (conn : Nat) (st : TtsQueueState) :
    ((enqueue lib cfg now g text conn st).2 = Except.error TtsError.rateLimited ↔
      now - (st.lastRequestTime g).getD 0 < cfg.minRequestInterval) ∧
    (now - (st.lastRequestTime g).getD 0 < cfg.minRequestInterval →
      (enqueue lib cfg now g text conn st).1 = st) ∧
    (¬ now - (st.lastRequestTime g).getD 0 < cfg.minRequestInterval →
      (enqueue lib cfg now g text conn st).1.lastRequestTime g = some now) := by
  by_cases hrl : now - (st.lastRequestTime g).getD 0 < cfg.minRequestInterval
  · refine ⟨by simp [enqueue, checkRateLimit, hrl], fun _ => ?_, fun h => absurd hrl h⟩
    simp [enqueue, checkRateLimit, hrl]
  · refine ⟨?_, fun h => absurd h hrl, fun _ => ?_⟩
    · by_cases hsan : (sanitizeText cfg.maxChars text).isEmpty <;>
        simp [enqueue, checkRateLimit, hrl, hsan]
    · by_cases hsan : (sanitizeText cfg.maxChars text).isEmpty <;>
        simp [enqueue, checkRateLimit, hrl, hsan, upd]

/-- C7 witness: after an accepted call at t=1000, a call at t=1100 is
rate-limited and changes nothing. -/
theorem C7_rate_limit_gate_witness :
    ((enqueue hmphLib defaultTtsConfig 1100 1 "hello".toList 6
        (enqueue hmphLib defaultTtsConfig 1000 1 "hi".toList 5 emptyTtsState).1).2 =
          Except.error TtsError.rateLimited ↔
      1100 - (((enqueue hmphLib defaultTtsConfig 1000 1 "hi".toList 5
        emptyTtsState).1.lastRequestTime 1).getD 0) < defaultTtsConfig.minRequestInterval) ∧
    (enqueue hmphLib defaultTtsConfig 1100 1 "hello".toList 6
        (enqueue hmphLib defaultTtsConfig 1000 1 "hi".toList 5 emptyTtsState).1).1 =
      (enqueue hmphLib defaultTtsConfig 1000 1 "hi".toList 5 emptyTtsState).1 := by
  have h := C7_rate_limit_gate hmphLib defaultTtsConfig 1100 1 "hello".toList 6
    (enqueue hmphLib defaultTtsConfig 1000 1 "hi".toList 5 emptyTtsState).1
  exact ⟨h.1, h.2.1 (by decide)⟩

/-! ## C8: empty and whitespace-only input -/

theorem sanitizeText_of_core_empty (m : Nat) (t : List Char)
    (h : trimChars (stripChannelMentions (stripUserMentions (stripRoleMentions
      (stripMentionsEveryone t)))) = []) : sanitizeText m t = [] := by
  simp [sanitizeText, h]

/-- C8: when the rate-limit gate passes, `enqueue` with the empty text and
with whitespace-only text both reject with the empty-after-sanitization
error and add nothing to the guild's queue. -/
theorem C8_empty_input_rejected (lib : SoundLib) (cfg : TtsConfig)
    (now g conn : Nat) (st : TtsQueueState)
    (hgate : ¬ now - (st.lastRequestTime g).getD 0 < cfg.minRequestInterval) :
    (enqueue lib cfg now g [] conn st).2 =
      Except.error TtsError.emptyAfterSanitization ∧
    (enqueue lib cfg now g "   ".toList conn st).2 =
      Except.error TtsError.emptyAfterSanitization ∧
    (enqueue lib cfg now g [] conn st).1.queues g = st.queues g ∧
    (enqueue lib cfg now g "   ".toList conn st).1.queues g = st.queues g := by
  have h1 := sanitizeText_of_core_empty cfg.maxChars [] (by decide)
  have h2 : sanitizeText cfg.maxChars [' ', ' ', ' '] = [] :=
    sanitizeText_of_core_empty cfg.maxChars "   ".toList (by decide)
  refine ⟨?_, ?_, ?_, ?_⟩ <;> simp [enqueue, checkRateLimit, hgate, h1, h2]

/-- C8 witness: fresh queue state, call at t=1000. -/
theorem C8_empty_input_rejected_witness :
    (enqueue hmphLib defaultTtsConfig 1000 1 [] 5 emptyTtsState).2 =
      Except.error TtsError.emptyAfterSanitization ∧
    (enqueue hmphLib defaultTtsConfig 1000 1 "   ".toList 5 emptyTtsState).2 =
      Except.error TtsError.emptyAfterSanitization ∧
    (enqueue hmphLib defaultTtsConfig 1000 1 [] 5 emptyTtsState).1.queues 1 =
      emptyTtsState.queues 1 ∧
    (enqueue hmphLib defaultTtsConfig 1000 1 "   ".toList 5 emptyTtsState).1.queues 1 =
      emptyTtsState.queues 1 :=
  C8_empty_input_rejected hmphLib defaultTtsConfig 1000 1 5 emptyTtsState (by decide)

/-! ## C10: frame effects of an empty-input rejection -/

/-- C10: a call whose text sanitizes to empty still records its timestamp
and its connection before rejecting — so any call for the same guild
within `minRequestInterval` of the rejected call is itself rejected as
rate-limited, and the rejected call's connection is the one left recorded
for later queue processing. -/
theorem C10_empty_rejection_frame_effects (lib : SoundLib) (cfg : TtsConfig)
    (now now2 g conn conn2 : Nat) (text text2 : List Char) (st : TtsQueueState)
    (hgate : ¬ now - (st.lastRequestTime g).getD 0 < cfg.minRequestInterval)
    (hempty : sanitizeText cfg.maxChars text = [])
    (hwithin : now2 - now < cfg.minRequestInterval) :
    (enqueue lib cfg now g text conn st).2 =
      Except.error TtsError.emptyAfterSanitization ∧
    (enqueue lib cfg now g text conn st).1.lastRequestTime g = some now ∧
    (enqueue lib cfg now g text conn st).1.currentConnections g = some conn ∧
    (enqueue lib cfg now2 g text2 conn2 (enqueue lib cfg now g text conn st).1).2 =
      Except.error TtsError.rateLimited := by
  have hlast : (enqueue lib cfg now g text conn st).1.lastRequestTime g = some now := by
    simp [enqueue, checkRateLimit, hgate, hempty, upd]
  refine ⟨?_, hlast, ?_, ?_⟩
  · simp [enqueue, checkRateLimit, hgate, hempty]
  · simp [enqueue, checkRateLimit, hgate, hempty, upd]
  · rw [enqueue, checkRateLimit]
    simp [hlast, hwithin]

/-- C10 witness: empty text at t=1000, second call at t=1100. -/
theorem C10_empty_rejection_frame_effects_witness :
    (enqueue hmphLib defaultTtsConfig 1000 1 [] 5 emptyTtsState).2 =
      Except.error TtsError.emptyAfterSanitization ∧
    (enqueue hmphLib defaultTtsConfig 1000 1 [] 5 emptyTtsState).1.lastRequestTime 1 =
      some 1000 ∧
    (enqueue hmphLib defaultTtsConfig 1000 1 [] 5 emptyTtsState).1.currentConnections 1 =
      some 5 ∧
    (enqueue hmphLib defaultTtsConfig 1100 1 "hello".toList 6
        (enqueue hmphLib defaultTtsConfig 1000 1 [] 5 emptyTtsState).1).2 =
      Except.error TtsError.rateLimited :=
  C10_empty_rejection_frame_effects hmphLib defaultTtsConfig 1000 1100 1 5 6 []
    "hello".toList emptyTtsState (by decide) (by decide) (by decide)

end TtsQueue

/-! ## C9: persistent mode suppresses Leave -/

/-- C9: a channel-to-no-channel transition classifies as Leave, and when
the guild's 24/7 persistent flag is set, `handleOwnerLeave` never invokes
the supervisor's `leave` and returns the session unchanged — its state is
whatever it was, never forced to `Disconnecting` or reset to `Idle`. -/
theorem C9_persistent_mode_suppresses_leave (oldChannel : Nat)
    (st : GuildVoiceState) :
    VoiceFollower.classifyTransition (some oldChannel) none =
      FollowAction.leaveGuild ∧
    VoiceFollower.handleOwnerLeave true (some st) = (some st, false) ∧
    (VoiceFollower.handleOwnerLeave true (some st)).1 = some st := by
  exact ⟨rfl, rfl, rfl⟩

end VoiceBot
